import Mathlib

/-!
Shallow embedding of the PyUE4Builder orchestration core
(`src/PyUE4Builder/build_script.py` and `src/PyUE4Builder/actions/package.py`).

Python dict/attribute state is modelled with association lists over a small
value type `MVal`; the mutable configuration objects that `deepcopy` protects
are modelled with an explicit heap of configuration cells so that aliasing and
mutation are faithfully represented.  Modules of the repository that are not
under `src/` (`config.py`, `build_meta.py`, `actions/action.py`,
`utility/common.py`) are modelled from the spec where noted.
-/

/-- Values stored in build metadata and passed as action keyword arguments. -/
inductive MVal where
  | natV (n : Nat)
  | strV (s : String)
  | boolV (b : Bool)
deriving DecidableEq, Repr

/-- Association-list lookup, mirroring a Python dict or attribute read. -/
def getKV : List (String × MVal) → String → Option MVal
  | [], _ => none
  | (k1, v) :: t, k => if k1 = k then some v else getKV t k

/-- Association-list update, mirroring a Python dict item or attribute write:
replace the binding if the key is present, otherwise append it. -/
def setKV : List (String × MVal) → String → MVal → List (String × MVal)
  | [], k, v => [(k, v)]
  | (k1, v1) :: t, k, v => if k1 = k then (k, v) :: t else (k1, v1) :: setKV t k v

/-- Bulk update, mirroring a Python `dict.update` call: later bindings win. -/
def updateKV (d : List (String × MVal)) (kvs : List (String × MVal)) :
    List (String × MVal) :=
  kvs.foldl (fun acc kv => setKV acc kv.1 kv.2) d

/-- Modelled from the spec: `ProjectConfig` (its module `config.py` is not
under `src/`).  Holds exactly the configuration fields that
`build_script.py` and `actions/package.py` read: paths, build flags,
version-control coordinates, bootstrap fields, and the environment-check
result consulted by `Package.verify`. -/
structure ProjectConfig where
  configuration : String := "Development"
  platform : String := "Win64"
  clean : Bool := false
  git_repo : String := ""
  git_proj_branch : String := ""
  UE4EnginePath : String := ""
  UE4EngineKeyName : String := ""
  engine_path_name : String := ""
  uproject_name : String := "Game"
  uproject_file_path : String := ""
  uproject_dir_path : String := ""
  builds_path : String := ""
  version_str : String := ""
  editor_running : Bool := false
  exclude_samples : Bool := false
  extra_dependency_excludes : List String := []
  check_environment : Bool := true
deriving DecidableEq, Repr

instance : Inhabited ProjectConfig := ⟨{}⟩

/-- Modelled from the spec: `BuildMeta` (its module `build_meta.py` is not
under `src/`).  `data` is the in-memory key/value mapping, `saved` the
last snapshot persisted to durable storage by `save_meta`. -/
structure BuildMeta where
  data : List (String × MVal) := []
  saved : List (String × MVal) := []
deriving DecidableEq, Repr

/-- Modelled from the spec: `BuildMeta.collect_meta` projects the requested
keys out of the store and fails (raises) if a requested key is absent. -/
def BuildMeta.collect_meta (m : BuildMeta) (keys : List String) :
    Option (List (String × MVal)) :=
  keys.mapM (fun k => (getKV m.data k).map (fun v => (k, v)))

/-- Modelled from the spec: `setattr(build_meta, k, v)` as performed by the
meta-update loop of `run_build_steps`. -/
def BuildMeta.setAttr (m : BuildMeta) (k : String) (v : MVal) : BuildMeta :=
  { m with data := setKV m.data k v }

/-- Modelled from the spec: `BuildMeta.save_meta` persists the current
mapping as the durable snapshot. -/
def BuildMeta.save_meta (m : BuildMeta) : BuildMeta :=
  { m with saved := m.data }

/-- The `action` object of a step descriptor
(`step['action']` in `run_build_steps`, shape given in spec section 6). -/
structure ActionDesc where
  module : String
  args : Option (List (String × MVal)) := none
  meta : Option (List String) := none
  meta_updates : Option (List (String × String)) := none
deriving DecidableEq, Repr

/-- One step descriptor of a step group
(`Step` shape in spec section 6, read by `run_build_steps`). -/
structure Step where
  desc : Option String := none
  enabled : Option Bool := none
  allow_failure : Option Bool := none
  action : ActionDesc
deriving DecidableEq, Repr

/-- Behaviour of a resolved action class: `verify`, `run` (success flag and
error string), the net mutation the action performs on its configuration
cell while running, and the named outputs read by `meta_updates`
(`getattr(b, name, None)`). -/
structure ActionImpl where
  verify : ProjectConfig → List (String × MVal) → String
  runOk : ProjectConfig → List (String × MVal) → Bool
  runError : ProjectConfig → List (String × MVal) → String
  mutate : ProjectConfig → ProjectConfig
  outputs : ProjectConfig → List (String × MVal) → String → Option MVal

/-- Result of resolving a step action kind, the two-phase lookup of
`run_build_steps` lines 274-276: `importError` models
`importlib.import_module` raising for a non-importable module (the
exception is uncaught inside `run_build_steps` and reaches the top-level
handler of `build_script.py` lines 319-323, which calls `error_exit`
with the exception text, aborting the whole run); `classMissing` models a
module that imports but whose title-cased class is absent, so
`getattr(step_module, class_name.title(), None)` returns `None`;
`found` carries the resolved action class behaviour. -/
inductive Resolution where
  | importError (msg : String)
  | classMissing
  | found (impl : ActionImpl)

/-- Observable events of one `run_build_steps` invocation. -/
inductive REvent where
  | printAction (desc : String)
  | warn (msg : String)
  | constructed (module : String) (snapshot : ProjectConfig)
  | verified (module : String)
  | ran (module : String)
  | savedMeta
deriving DecidableEq, Repr

/-- Result of a whole step-group run: normal return, or `error_exit`
(which aborts the entire process). -/
inductive ROutcome where
  | ok
  | fatal (msg : String)
deriving DecidableEq, Repr

/-- Pipeline-driver state: a heap of configuration cells (so the aliasing
that `deepcopy` prevents can be expressed), the index of the cell holding
the driver configuration, and the metadata store. -/
structure RunSt where
  heap : List ProjectConfig
  driver : Nat
  meta : BuildMeta
deriving Repr

/-- Last dotted component of the module string, first letter upper-cased:
`step['action']['module'].split('.')[-1].title()` of `run_build_steps`. -/
def lastComponentAux : List Char → List Char → List Char
  | [], acc => acc.reverse
  | c :: t, acc => if c = '.' then lastComponentAux t [] else lastComponentAux t (c :: acc)

/-- Python `str.title()` on ASCII text: an alphabetic character is
uppercased when it follows a non-alphabetic character and lowercased when
it follows an alphabetic one (the boolean tracks whether the previous
character was alphabetic). -/
def titleChars : List Char → Bool → List Char
  | [], _ => []
  | c :: t, prevCased =>
    if c.isAlpha then
      (if prevCased then c.toLower else c.toUpper) :: titleChars t true
    else c :: titleChars t false

/-- Python `module.split('.')[-1].title()` for a dotted identifier. -/
def classTitle (m : String) : String :=
  String.mk (titleChars (lastComponentAux m.data []) false)

/-- Action keyword arguments built by `run_build_steps` lines 281-287:
an empty dict, updated with the collected metadata values when the step
requests `meta` keys, then updated with the declared static `args`.
`none` models the uncaught KeyError of a missing requested key. -/
def buildKwargs (bm : BuildMeta) (a : ActionDesc) : Option (List (String × MVal)) :=
  let afterMeta : Option (List (String × MVal)) :=
    match a.meta with
    | none => some []
    | some keys => (bm.collect_meta keys).map (fun c => updateKV [] c)
  afterMeta.map (fun kw =>
    match a.args with
    | none => kw
    | some args => updateKV kw args)

/-- Result of processing a single step inside the loop of
`run_build_steps`: fall through to the next step (`continue` or normal
completion), early-return from the whole group (`allow_failure` path), or
`error_exit` aborting the run. -/
inductive StepRes where
  | proceed (st : RunSt) (evs : List REvent)
  | stopGroup (st : RunSt) (evs : List REvent)
  | fatalStop (st : RunSt) (evs : List REvent) (msg : String)

/-- One iteration of the step loop of `run_build_steps`
(`build_script.py` lines 267-315).  The action is constructed against a
deep copy of the driver configuration: a fresh heap cell initialised with
the driver cell value.  The action may mutate only its own cell
(`impl.mutate`, applied when `run` executes). -/
def runStep (reg : String → Resolution) (step : Step) (st : RunSt) : StepRes :=
  if step.enabled = some false then
    .proceed st []
  else
    let desc := step.desc.getD "Performing Undescribed step"
    match reg step.action.module with
    | .importError msg => .fatalStop st [.printAction desc] msg
    | .classMissing =>
      .proceed st [.printAction desc,
        .warn ("action class (" ++ classTitle step.action.module ++ ") could not be found!")]
    | .found impl =>
      match buildKwargs st.meta step.action with
      | none => .fatalStop st [.printAction desc] "missing requested meta key"
      | some kw =>
        let snap := st.heap.getD st.driver default
        let idx := st.heap.length
        let st1 : RunSt := { st with heap := st.heap ++ [snap] }
        let evs0 := [REvent.printAction desc, REvent.constructed step.action.module snap]
        let verr := impl.verify snap kw
        if verr = "" then
          let st2 : RunSt := { st1 with heap := st1.heap.set idx (impl.mutate snap) }
          let evs1 := evs0 ++ [REvent.verified step.action.module, REvent.ran step.action.module]
          if impl.runOk snap kw then
            match step.action.meta_updates with
            | none => .proceed st2 evs1
            | some us =>
              let bm := us.foldl (fun bm kv =>
                match impl.outputs (impl.mutate snap) kw kv.2 with
                | some item => bm.setAttr kv.1 item
                | none => bm) st2.meta
              .proceed { st2 with meta := bm.save_meta } (evs1 ++ [REvent.savedMeta])
          else
            if step.allow_failure = some true then
              .stopGroup st2 (evs1 ++ [.warn (impl.runError snap kw),
                .warn "Running of this action failed. Skipping because of allow_failure flag."])
            else
              .fatalStop st2 evs1 (impl.runError snap kw)
        else
          let evs2 := evs0 ++ [REvent.verified step.action.module]
          if step.allow_failure = some true then
            .stopGroup st1 (evs2 ++ [.warn verr,
              .warn "Verification of this action failed. Skipping because of allow_failure flag."])
          else
            .fatalStop st1 evs2 verr

/-- The step loop of `run_build_steps` over one step group. -/
def runStepsAux (reg : String → Resolution) :
    List Step → RunSt → RunSt × List REvent × ROutcome
  | [], st => (st, [], .ok)
  | step :: rest, st =>
    match runStep reg step st with
    | .proceed st1 evs =>
      let r := runStepsAux reg rest st1
      (r.1, evs ++ r.2.1, r.2.2)
    | .stopGroup st1 evs => (st1, evs, .ok)
    | .fatalStop st1 evs m => (st1, evs, .fatal m)

/-- The fixed sequence of `run_build_steps` invocations performed by
`build_script` (pre-build, build-type specific, post-build): groups run
strictly in order and a fatal `error_exit` in one group prevents all
later groups from running. -/
def runGroups (reg : String → Resolution) :
    List (List Step) → RunSt → RunSt × List REvent × ROutcome
  | [], st => (st, [], .ok)
  | g :: gs, st =>
    match runStepsAux reg g st with
    | (st1, e1, .fatal m) => (st1, e1, .fatal m)
    | (st1, e1, .ok) =>
      let r := runGroups reg gs st1
      (r.1, e1 ++ r.2.1, r.2.2)

/-- External-process and shared-resource events observable during
`ensure_engine` (`build_script.py` lines 162-249): the git clone of the
engine, the engine-registry upsert, the dependency-sync process launch
with its exclude arguments, and the project-file-generation launch. -/
inductive BootEvent where
  | confirmPrompt
  | madeDirs (path : String)
  | gitSync
  | registerEngine
  | launchDeps (args : List String)
  | launchGenProj
deriving DecidableEq, Repr

/-- Terminal result of one bootstrap pass: `ready`, or `error_exit`
aborting the whole run with a message. -/
inductive BootOutcome where
  | ready
  | abortedWith (msg : String)
deriving DecidableEq, Repr

/-- Ambient environment consulted by `ensure_engine`: interactive answers,
filesystem probes, exit codes of the external processes it can spawn, and
whether `config.setup_engine_paths` succeeds for a given argument. -/
structure BootEnv where
  confirmAnswer : Bool
  promptAnswer : String
  pathExists : String → Bool
  makedirsOk : String → Bool
  abspath : String → String
  isAbs : String → Bool
  normJoin : String → String → String
  setupOk : String → Bool
  gitOk : Bool
  gitError : String
  depsExit : Int
  genProjExit : Int
  ubtExists : Bool
  vs2017 : Bool

/-- Modelled from the spec: `ProjectConfig.setup_engine_paths` (module
`config.py` is not under `src/`) stores the resolved engine install path
in the configuration and touches no unrelated field; with an empty
argument it recomputes from the already-known path, leaving the
configuration unchanged. -/
def setup_engine_paths (env : BootEnv) (path : String) (c : ProjectConfig) :
    ProjectConfig :=
  if path = "" then c else { c with UE4EnginePath := env.abspath path }

/-- Message of the `error_exit` at `build_script.py` lines 172-173. -/
def staticEngineMsg : String :=
  "Static engine placement required for non-git pulled engine. You can specify a path using the -e param, or specify git configuration."

/-- Engine-path resolution of the `config.UE4EnginePath == ''` branch of
`ensure_engine` (lines 175-204): explicit override, interactive prompt,
or a computed default location, each followed by `setup_engine_paths`. -/
def resolveEnginePath (env : BootEnv) (c : ProjectConfig) (engine_override : String) :
    ProjectConfig × List BootEvent × BootOutcome :=
  if engine_override ≠ "" then
    (setup_engine_paths env (env.abspath engine_override) c, [], .ready)
  else if env.confirmAnswer then
    let r := env.promptAnswer
    if ¬ env.pathExists r ∧ ¬ env.makedirsOk r then
      (c, [.confirmPrompt],
       .abortedWith ("Unable to create engine directory! Tried @ " ++ r))
    else
      (setup_engine_paths env r c,
       [.confirmPrompt] ++ (if env.pathExists r then [] else [.madeDirs r]), .ready)
  else
    let engine_path :=
      if c.engine_path_name.length = 0 then
        env.abspath (env.normJoin c.uproject_dir_path
          ("..\\UnrealEngine_" ++ c.uproject_name))
      else if env.isAbs c.engine_path_name then c.engine_path_name
      else env.normJoin c.uproject_dir_path c.engine_path_name
    if ¬ env.pathExists engine_path ∧ ¬ env.makedirsOk engine_path then
      (c, [.confirmPrompt],
       .abortedWith ("Unable to create engine directory! Tried @ " ++ engine_path))
    else
      (setup_engine_paths env engine_path c,
       [.confirmPrompt] ++ (if env.pathExists engine_path then [] else [.madeDirs engine_path]),
       .ready)

/-- Exclude arguments passed to the dependency-sync process
(`ensure_engine` lines 230-238). -/
def depExcludeArgs (c : ProjectConfig) : List String :=
  (if c.exclude_samples then
    ["FeaturePacks", "Samples", "Templates"].map (fun s => "-exclude=" ++ s)
   else [])
  ++ c.extra_dependency_excludes.map (fun s => "-exclude=" ++ s)

/-- The toolchain bootstrapper `ensure_engine`
(`build_script.py` lines 162-249): resolve or acquire an engine path,
pull via git when configured, set up engine paths, register the engine,
and, unless the editor is running, sync dependencies and generate the
build tool when missing.  Every `error_exit` aborts the run. -/
def ensure_engine (env : BootEnv) (config0 : ProjectConfig) (engine_override : String) :
    ProjectConfig × List BootEvent × BootOutcome :=
  let phase1 : ProjectConfig × List BootEvent × BootOutcome :=
    if config0.UE4EnginePath = "" then
      if ¬ (config0.git_repo ≠ "" ∧ config0.git_proj_branch ≠ "") ∧ engine_override = "" then
        (config0, [], .abortedWith staticEngineMsg)
      else resolveEnginePath env config0 engine_override
    else if config0.UE4EnginePath ≠ engine_override ∧ engine_override ≠ "" then
      (config0, [],
       .abortedWith "Specific engine path requested, but engine path for this project already exists?")
    else (config0, [], .ready)
  match phase1 with
  | (c1, e1, .abortedWith m) => (c1, e1, .abortedWith m)
  | (c1, e1, .ready) =>
    if (config0.git_repo ≠ "" ∧ config0.git_proj_branch ≠ "") ∧ ¬ env.gitOk then
      (c1, e1 ++ [.gitSync], .abortedWith env.gitError)
    else
      let e2 := e1 ++ (if config0.git_repo ≠ "" ∧ config0.git_proj_branch ≠ "" then [BootEvent.gitSync] else [])
      let c2 := setup_engine_paths env engine_override c1
      if ¬ env.setupOk engine_override then
        (c2, e2, .abortedWith "Could not setup valid engine paths!")
      else
        let e3 := e2 ++ (if c2.UE4EngineKeyName ≠ "" then [BootEvent.registerEngine] else [])
        if c2.editor_running then (c2, e3, .ready)
        else
          let e4 := e3 ++ [BootEvent.launchDeps (depExcludeArgs c2)]
          if env.depsExit ≠ 0 then
            (c2, e4, .abortedWith "Engine dependencies Failed to Sync!")
          else if env.ubtExists then (c2, e4, .ready)
          else
            let e5 := e4 ++ [BootEvent.launchGenProj]
            if env.genProjExit ≠ 0 then
              (c2, e5, .abortedWith "Failed to build UnrealBuildTool.exe!")
            else (c2, e5, .ready)

/-- The packaging action state (`actions/package.py` lines 27-49), with
the constructor default for every keyword argument. -/
structure Package where
  config : ProjectConfig
  pak_assets : Bool := true
  nativize_assets : Bool := true
  compressed_assets : Bool := true
  no_debug_info : Bool := false
  full_rebuild : Bool := false
  no_editor_content : Bool := false
  ignore_cook_errors : Bool := false
  use_debug_editor_cmd : Bool := false
  build_type : String := ""
  maps : List String := []
  build : Bool := true
  cook : Bool := true
  package : Bool := true
  stage : Bool := true
  archive : Bool := true
  content_black_list : String := ""
  error : String := ""
deriving DecidableEq, Repr

/-- `Package.verify` (`actions/package.py` lines 51-61): returns the
possibly mutated action instance together with the returned error
message.  Note that an unrecognised `build_type` is overwritten with
`standalone` on `self`. -/
def Package.verify (p : Package) : Package × String :=
  if ¬ p.config.check_environment then
    (p, "Environment is not ready for building or packaging!")
  else if ¬ (p.build_type = "standalone" ∨ p.build_type = "client" ∨ p.build_type = "server") then
    ({ p with build_type := "standalone" }, "")
  else (p, "")

/-- The external-process argument vector assembled by `Package.run`
(`actions/package.py` lines 101-150) from an already-verified instance. -/
def Package.cmdArgs (p : Package) : List String :=
  ["-ScriptsForProject=" ++ p.config.uproject_file_path,
   "BuildCookRun", "-nocompileeditor", "-NoHotReload", "-nop4",
   "-project=" ++ p.config.uproject_file_path,
   "-archivedirectory=" ++ p.config.builds_path,
   "-clientconfig=" ++ p.config.configuration,
   "-serverconfig=" ++ p.config.configuration,
   "-ue4exe=" ++ (if p.use_debug_editor_cmd then "UE4Editor-Win64-Debug-Cmd.exe"
                  else "UE4Editor-Cmd.exe"),
   "-prereqs", "-targetplatform=Win64", "-platform=Win64",
   "-servertargetplatform=Win64", "-serverplatform=Win64",
   "-CrashReporter", "-utf8output"]
  ++ (if p.build then ["-build"] else [])
  ++ (if p.cook then ["-cook"] else [])
  ++ (if p.package then ["-package"] else [])
  ++ (if p.stage then ["-stage"] else [])
  ++ (if p.archive then ["-archive"] else [])
  ++ (if p.build_type = "client" then ["-client"]
      else if p.build_type = "server" then ["-server", "-noclient"] else [])
  ++ (if p.nativize_assets then ["-nativizeAssets"] else [])
  ++ (if p.pak_assets ∧ p.stage then ["-pak"] else [])
  ++ (if p.compressed_assets then ["-compressed"] else [])
  ++ (if p.no_debug_info then ["-nodebuginfo"] else [])
  ++ (if p.no_editor_content then ["-SkipCookingEditorContent"] else [])
  ++ (if p.ignore_cook_errors then ["-IgnoreCookErrors"] else [])
  ++ (if 0 < p.maps.length then ["-map=" ++ String.intercalate "+" p.maps] else [])
  ++ (if p.config.clean ∨ p.full_rebuild then ["-clean"]
      else ["-iterate", "-iterativecooking"])
  ++ ["-compile"]

/-- A trivially succeeding action used in concrete examples. -/
def okImpl : ActionImpl where
  verify := fun _ _ => ""
  runOk := fun _ _ => true
  runError := fun _ _ => ""
  mutate := fun c => c
  outputs := fun _ _ _ => none

/-- An action whose run always fails. -/
def failImpl : ActionImpl where
  verify := fun _ _ => ""
  runOk := fun _ _ => false
  runError := fun _ _ => "boom"
  mutate := fun c => c
  outputs := fun _ _ _ => none

/-- An always-succeeding action exposing the named output `barAttr` with
value `42` (the action of Scenario A in the spec). -/
def metaImpl : ActionImpl where
  verify := fun _ _ => ""
  runOk := fun _ _ => true
  runError := fun _ _ => ""
  mutate := fun c => c
  outputs := fun _ _ name => if name = "barAttr" then some (MVal.natV 42) else none

/-- Concrete resolution environment for examples: three modules resolve to
the fixture actions; `actions.nonexistent` is a non-importable module
(its import raises); any other module string (for instance
`utility.common`, a module of this repository whose title-cased class
`Common` does not exist) imports but holds no matching action class. -/
def reg0 : String → Resolution := fun m =>
  if m = "actions.build" then .found okImpl
  else if m = "actions.fail" then .found failImpl
  else if m = "actions.meta" then .found metaImpl
  else if m = "actions.nonexistent" then
    .importError "No module named actions.nonexistent"
  else .classMissing

/-- Default concrete configuration. -/
def cfg0 : ProjectConfig := {}

/-- Concrete initial runner state: one heap cell holding the driver
configuration, empty metadata. -/
def st0 : RunSt := { heap := [cfg0], driver := 0, meta := {} }

/-- A plain enabled step resolving to the succeeding action. -/
def buildStep : Step := { action := { module := "actions.build" } }

/-- A step explicitly marked `enabled = false`. -/
def disabledStep : Step :=
  { enabled := some false, action := { module := "actions.build" } }

/-- A step whose action class cannot be resolved. -/
def unknownStep : Step := { action := { module := "utility.common" } }

/-- A step whose action module cannot even be imported. -/
def importErrorStep : Step := { action := { module := "actions.nonexistent" } }

/-- A step with `allow_failure = true` whose action run fails. -/
def failStep : Step :=
  { allow_failure := some true, action := { module := "actions.fail" } }

/-- The Scenario A step: successful action with
`meta_updates = (foo maps to barAttr)`. -/
def metaStep : Step :=
  { action := { module := "actions.meta",
                meta_updates := some [("foo", "barAttr")] } }

/-- Concrete metadata store seeding key `foo`. -/
def bm0 : BuildMeta := { data := [("foo", MVal.natV 1)], saved := [] }

/-- Concrete action descriptor whose static args and requested meta keys
overlap on `foo`. -/
def a0 : ActionDesc :=
  { module := "actions.build",
    args := some [("foo", MVal.natV 2)],
    meta := some ["foo"] }

/-- Concrete packaging action with the constructor defaults (in
particular `build_type` is the empty string). -/
def p0 : Package := { config := cfg0 }

/-- Concrete bootstrap environment where every external interaction
succeeds. -/
def env0 : BootEnv where
  confirmAnswer := false
  promptAnswer := ""
  pathExists := fun _ => true
  makedirsOk := fun _ => true
  abspath := fun s => s
  isAbs := fun _ => false
  normJoin := fun a b => a ++ "\\" ++ b
  setupOk := fun _ => true
  gitOk := true
  gitError := ""
  depsExit := 0
  genProjExit := 0
  ubtExists := true
  vs2017 := true

/-- Concrete configuration with a known engine path and a running editor. -/
def cfgE : ProjectConfig := { UE4EnginePath := "C:\\UE4", editor_running := true }

/-! Helper lemmas about lists, strings and the association-list model. -/

lemma getD_append_lt {α : Type} (l l2 : List α) (i : Nat) (d : α) (h : i < l.length) :
    (l ++ l2).getD i d = l.getD i d := by
  induction l generalizing i with
  | nil => simp at h
  | cons a t ih =>
    cases i with
    | zero => rfl
    | succ n => exact ih n (Nat.lt_of_succ_lt_succ h)

lemma set_append_len {α : Type} (l : List α) (a b : α) :
    (l ++ [a]).set l.length b = l ++ [b] := by
  induction l with
  | nil => rfl
  | cons x t ih =>
    show x :: ((t ++ [a]).set t.length b) = x :: (t ++ [b])
    rw [ih]

lemma getKV_setKV_self (l : List (String × MVal)) (k : String) (v : MVal) :
    getKV (setKV l k v) k = some v := by
  induction l with
  | nil => simp [setKV, getKV]
  | cons h t ih =>
    obtain ⟨k1, v1⟩ := h
    by_cases hk : k1 = k <;> simp [setKV, getKV, hk, ih]

lemma getKV_setKV_ne (l : List (String × MVal)) (k k1 : String) (v : MVal)
    (h : k1 ≠ k) : getKV (setKV l k1 v) k = getKV l k := by
  induction l with
  | nil => simp [setKV, getKV, h]
  | cons hd t ih =>
    obtain ⟨k2, v2⟩ := hd
    by_cases hk : k2 = k1
    · subst hk
      simp [setKV, getKV, h]
    · have hs : setKV ((k2, v2) :: t) k1 v = (k2, v2) :: setKV t k1 v := by
        simp [setKV, hk]
      rw [hs]
      by_cases hk2 : k2 = k <;> simp [getKV, hk2, ih]

lemma getKV_updateKV_not_mem (kvs : List (String × MVal)) :
    ∀ d k, k ∉ kvs.map Prod.fst → getKV (updateKV d kvs) k = getKV d k := by
  induction kvs with
  | nil => intro d k _; rfl
  | cons a t ih =>
    intro d k h
    simp only [List.map_cons, List.mem_cons] at h
    push_neg at h
    have h2 : getKV (updateKV (setKV d a.1 a.2) t) k = getKV (setKV d a.1 a.2) k :=
      ih (setKV d a.1 a.2) k h.2
    calc getKV (updateKV d (a :: t)) k
        = getKV (updateKV (setKV d a.1 a.2) t) k := rfl
      _ = getKV (setKV d a.1 a.2) k := h2
      _ = getKV d k := getKV_setKV_ne d k a.1 a.2 (fun he => h.1 he.symm)

lemma getKV_updateKV_mem (kvs : List (String × MVal)) :
    ∀ d k v, (kvs.map Prod.fst).Nodup → (k, v) ∈ kvs →
    getKV (updateKV d kvs) k = some v := by
  induction kvs with
  | nil => intro d k v _ hm; cases hm
  | cons a t ih =>
    intro d k v hnd hm
    simp only [List.map_cons, List.nodup_cons] at hnd
    rcases List.mem_cons.1 hm with he | ht
    · have hk : a.1 = k := by rw [← he]
      have h2 : k ∉ t.map Prod.fst := by rw [← hk]; exact hnd.1
      calc getKV (updateKV d (a :: t)) k
          = getKV (updateKV (setKV d a.1 a.2) t) k := rfl
        _ = getKV (setKV d a.1 a.2) k := getKV_updateKV_not_mem t _ k h2
        _ = some v := by rw [← he]; exact getKV_setKV_self d k v
    · exact ih (setKV d a.1 a.2) k v hnd.2 ht

lemma metaFold_not_mem (outs : String → Option MVal) (us : List (String × String)) :
    ∀ bm : BuildMeta, ∀ k, k ∉ us.map Prod.fst →
    getKV ((us.foldl (fun bm kv =>
      match outs kv.2 with
      | some item => bm.setAttr kv.1 item
      | none => bm) bm).data) k = getKV bm.data k := by
  induction us with
  | nil => intro bm k _; rfl
  | cons a t ih =>
    intro bm k h
    simp only [List.map_cons, List.mem_cons] at h
    push_neg at h
    rw [List.foldl_cons, ih _ k h.2]
    cases houts : outs a.2 with
    | none => rfl
    | some item =>
      simp only [BuildMeta.setAttr]
      exact getKV_setKV_ne bm.data k a.1 item (fun he => h.1 he.symm)

lemma metaFold_mem (outs : String → Option MVal) (us : List (String × String)) :
    ∀ bm : BuildMeta, ∀ k v m, (us.map Prod.fst).Nodup → (k, v) ∈ us →
    outs v = some m →
    getKV ((us.foldl (fun bm kv =>
      match outs kv.2 with
      | some item => bm.setAttr kv.1 item
      | none => bm) bm).data) k = some m := by
  induction us with
  | nil => intro bm k v m _ hm; cases hm
  | cons a t ih =>
    intro bm k v m hnd hm houts
    simp only [List.map_cons, List.nodup_cons] at hnd
    rcases List.mem_cons.1 hm with he | ht
    · have hk : a.1 = k := by rw [← he]
      have hv2 : a.2 = v := by rw [← he]
      have h2 : k ∉ t.map Prod.fst := by rw [← hk]; exact hnd.1
      rw [List.foldl_cons, metaFold_not_mem outs t _ k h2, hv2, houts]
      simp only [BuildMeta.setAttr]
      rw [hk]
      exact getKV_setKV_self bm.data k m
    · exact ih _ k v m hnd.2 ht houts

lemma str_data_append (p t : String) : (p ++ t).data = p.data ++ t.data := rfl

lemma str_ne_append_of_short (s p t : String) (h : s.length < p.length) :
    s ≠ p ++ t := by
  intro he
  have h2 := congrArg String.length he
  rw [String.length_append] at h2
  omega

lemma str_ne_append_at (s p t : String) (n : Nat) (hn : n < p.data.length)
    (h : s.data[n]? ≠ p.data[n]?) : s ≠ p ++ t := by
  intro he
  apply h
  have h2 := congrArg String.data he
  rw [str_data_append] at h2
  rw [h2, List.getElem?_append_left hn]

lemma mem_ite_list {α : Type} (a : α) (c : Prop) [Decidable c] (l l2 : List α) :
    (a ∈ (if c then l else l2)) ↔ ((c ∧ a ∈ l) ∨ (¬ c ∧ a ∈ l2)) := by
  split <;> simp [*]

/-! Evaluation lemmas for the step runner, one per control path of
`run_build_steps`. -/

lemma runStep_disabled (reg : String → Resolution) (step : Step) (st : RunSt)
    (he : step.enabled = some false) : runStep reg step st = .proceed st [] := by
  simp [runStep, he]

lemma runStep_class_missing (reg : String → Resolution) (step : Step) (st : RunSt)
    (he : ¬ step.enabled = some false)
    (hr : reg step.action.module = .classMissing) :
    runStep reg step st = .proceed st
      [.printAction (step.desc.getD "Performing Undescribed step"),
       .warn ("action class (" ++ classTitle step.action.module ++ ") could not be found!")] := by
  simp [runStep, he, hr]

lemma runStep_import_error (reg : String → Resolution) (step : Step) (st : RunSt)
    (msg : String) (he : ¬ step.enabled = some false)
    (hr : reg step.action.module = .importError msg) :
    runStep reg step st = .fatalStop st
      [.printAction (step.desc.getD "Performing Undescribed step")] msg := by
  simp [runStep, he, hr]

lemma runStep_missing_meta (reg : String → Resolution) (step : Step) (st : RunSt)
    (impl : ActionImpl) (he : ¬ step.enabled = some false)
    (hr : reg step.action.module = .found impl)
    (hk : buildKwargs st.meta step.action = none) :
    runStep reg step st = .fatalStop st
      [.printAction (step.desc.getD "Performing Undescribed step")]
      "missing requested meta key" := by
  simp [runStep, he, hr, hk]

lemma runStep_verify_fail_allow (reg : String → Resolution) (step : Step)
    (st : RunSt) (impl : ActionImpl) (kw : List (String × MVal))
    (he : ¬ step.enabled = some false) (hr : reg step.action.module = .found impl)
    (hk : buildKwargs st.meta step.action = some kw)
    (hv : ¬ impl.verify (st.heap.getD st.driver default) kw = "")
    (ha : step.allow_failure = some true) :
    runStep reg step st = .stopGroup { st with heap := st.heap ++ [st.heap.getD st.driver default] }
      [.printAction (step.desc.getD "Performing Undescribed step"),
       .constructed step.action.module (st.heap.getD st.driver default),
       .verified step.action.module,
       .warn (impl.verify (st.heap.getD st.driver default) kw),
       .warn "Verification of this action failed. Skipping because of allow_failure flag."] := by
  simp only [List.getD_eq_getElem?_getD] at hv
  simp [runStep, he, hr, hk, hv, ha]

lemma runStep_verify_fail_fatal (reg : String → Resolution) (step : Step)
    (st : RunSt) (impl : ActionImpl) (kw : List (String × MVal))
    (he : ¬ step.enabled = some false) (hr : reg step.action.module = .found impl)
    (hk : buildKwargs st.meta step.action = some kw)
    (hv : ¬ impl.verify (st.heap.getD st.driver default) kw = "")
    (ha : ¬ step.allow_failure = some true) :
    runStep reg step st = .fatalStop { st with heap := st.heap ++ [st.heap.getD st.driver default] }
      [.printAction (step.desc.getD "Performing Undescribed step"),
       .constructed step.action.module (st.heap.getD st.driver default),
       .verified step.action.module]
      (impl.verify (st.heap.getD st.driver default) kw) := by
  simp only [List.getD_eq_getElem?_getD] at hv
  simp [runStep, he, hr, hk, hv, ha]

lemma runStep_run_fail_allow (reg : String → Resolution) (step : Step)
    (st : RunSt) (impl : ActionImpl) (kw : List (String × MVal))
    (he : ¬ step.enabled = some false) (hr : reg step.action.module = .found impl)
    (hk : buildKwargs st.meta step.action = some kw)
    (hv : impl.verify (st.heap.getD st.driver default) kw = "")
    (hrun : impl.runOk (st.heap.getD st.driver default) kw = false)
    (ha : step.allow_failure = some true) :
    runStep reg step st = .stopGroup
      { st with heap := st.heap ++ [impl.mutate (st.heap.getD st.driver default)] }
      [.printAction (step.desc.getD "Performing Undescribed step"),
       .constructed step.action.module (st.heap.getD st.driver default),
       .verified step.action.module, .ran step.action.module,
       .warn (impl.runError (st.heap.getD st.driver default) kw),
       .warn "Running of this action failed. Skipping because of allow_failure flag."] := by
  simp only [List.getD_eq_getElem?_getD] at hv hrun
  simp [runStep, he, hr, hk, hv, hrun, ha, set_append_len]

lemma runStep_run_fail_fatal (reg : String → Resolution) (step : Step)
    (st : RunSt) (impl : ActionImpl) (kw : List (String × MVal))
    (he : ¬ step.enabled = some false) (hr : reg step.action.module = .found impl)
    (hk : buildKwargs st.meta step.action = some kw)
    (hv : impl.verify (st.heap.getD st.driver default) kw = "")
    (hrun : impl.runOk (st.heap.getD st.driver default) kw = false)
    (ha : ¬ step.allow_failure = some true) :
    runStep reg step st = .fatalStop
      { st with heap := st.heap ++ [impl.mutate (st.heap.getD st.driver default)] }
      [.printAction (step.desc.getD "Performing Undescribed step"),
       .constructed step.action.module (st.heap.getD st.driver default),
       .verified step.action.module, .ran step.action.module]
      (impl.runError (st.heap.getD st.driver default) kw) := by
  simp only [List.getD_eq_getElem?_getD] at hv hrun
  simp [runStep, he, hr, hk, hv, hrun, ha, set_append_len]

lemma runStep_success_no_meta (reg : String → Resolution) (step : Step)
    (st : RunSt) (impl : ActionImpl) (kw : List (String × MVal))
    (he : ¬ step.enabled = some false) (hr : reg step.action.module = .found impl)
    (hk : buildKwargs st.meta step.action = some kw)
    (hv : impl.verify (st.heap.getD st.driver default) kw = "")
    (hrun : impl.runOk (st.heap.getD st.driver default) kw = true)
    (hu : step.action.meta_updates = none) :
    runStep reg step st = .proceed
      { st with heap := st.heap ++ [impl.mutate (st.heap.getD st.driver default)] }
      [.printAction (step.desc.getD "Performing Undescribed step"),
       .constructed step.action.module (st.heap.getD st.driver default),
       .verified step.action.module, .ran step.action.module] := by
  simp only [List.getD_eq_getElem?_getD] at hv hrun
  simp [runStep, he, hr, hk, hv, hrun, hu, set_append_len]

lemma runStep_success_meta (reg : String → Resolution) (step : Step)
    (st : RunSt) (impl : ActionImpl) (kw : List (String × MVal))
    (us : List (String × String))
    (he : ¬ step.enabled = some false) (hr : reg step.action.module = .found impl)
    (hk : buildKwargs st.meta step.action = some kw)
    (hv : impl.verify (st.heap.getD st.driver default) kw = "")
    (hrun : impl.runOk (st.heap.getD st.driver default) kw = true)
    (hu : step.action.meta_updates = some us) :
    runStep reg step st = .proceed
      { heap := st.heap ++ [impl.mutate (st.heap.getD st.driver default)],
        driver := st.driver,
        meta := (us.foldl (fun bm kv =>
          match impl.outputs (impl.mutate (st.heap.getD st.driver default)) kw kv.2 with
          | some item => bm.setAttr kv.1 item
          | none => bm) st.meta).save_meta }
      [.printAction (step.desc.getD "Performing Undescribed step"),
       .constructed step.action.module (st.heap.getD st.driver default),
       .verified step.action.module, .ran step.action.module, .savedMeta] := by
  simp only [List.getD_eq_getElem?_getD] at hv hrun
  simp [runStep, he, hr, hk, hv, hrun, hu, set_append_len]

lemma runStepsAux_nil (reg : String → Resolution) (st : RunSt) :
    runStepsAux reg [] st = (st, [], .ok) := rfl

lemma runStepsAux_cons_proceed (reg : String → Resolution) (step : Step)
    (rest : List Step) (st st1 : RunSt) (evs : List REvent)
    (h : runStep reg step st = .proceed st1 evs) :
    runStepsAux reg (step :: rest) st =
      ((runStepsAux reg rest st1).1,
       evs ++ (runStepsAux reg rest st1).2.1,
       (runStepsAux reg rest st1).2.2) := by
  simp [runStepsAux, h]

lemma runStepsAux_cons_stop (reg : String → Resolution) (step : Step)
    (rest : List Step) (st st1 : RunSt) (evs : List REvent)
    (h : runStep reg step st = .stopGroup st1 evs) :
    runStepsAux reg (step :: rest) st = (st1, evs, .ok) := by
  simp [runStepsAux, h]

lemma runStepsAux_cons_fatal (reg : String → Resolution) (step : Step)
    (rest : List Step) (st st1 : RunSt) (evs : List REvent) (m : String)
    (h : runStep reg step st = .fatalStop st1 evs m) :
    runStepsAux reg (step :: rest) st = (st1, evs, .fatal m) := by
  simp [runStepsAux, h]

lemma runGroups_cons_ok (reg : String → Resolution) (g : List Step)
    (gs : List (List Step)) (st st1 : RunSt) (e1 : List REvent)
    (h : runStepsAux reg g st = (st1, e1, .ok)) :
    runGroups reg (g :: gs) st =
      ((runGroups reg gs st1).1,
       e1 ++ (runGroups reg gs st1).2.1,
       (runGroups reg gs st1).2.2) := by
  simp [runGroups, h]

lemma runGroups_cons_fatal (reg : String → Resolution) (g : List Step)
    (gs : List (List Step)) (st st1 : RunSt) (e1 : List REvent) (m : String)
    (h : runStepsAux reg g st = (st1, e1, .fatal m)) :
    runGroups reg (g :: gs) st = (st1, e1, .fatal m) := by
  simp [runGroups, h]

/-! Configuration-isolation invariant: the driver cell of the heap is never
written by any step, and every action is constructed against a snapshot
equal to the driver configuration. -/

/-- State component of a step result. -/
def stepSt : StepRes → RunSt
  | .proceed st _ => st
  | .stopGroup st _ => st
  | .fatalStop st _ _ => st

/-- Event component of a step result. -/
def stepEvs : StepRes → List REvent
  | .proceed _ e => e
  | .stopGroup _ e => e
  | .fatalStop _ e _ => e

lemma runStep_inv (reg : String → Resolution) (step : Step) (st : RunSt)
    (h : st.driver < st.heap.length) :
    (stepSt (runStep reg step st)).driver = st.driver ∧
    st.driver < (stepSt (runStep reg step st)).heap.length ∧
    (stepSt (runStep reg step st)).heap.getD st.driver default
      = st.heap.getD st.driver default ∧
    ∀ m c, REvent.constructed m c ∈ stepEvs (runStep reg step st) →
      c = st.heap.getD st.driver default := by
  by_cases he : step.enabled = some false
  · rw [runStep_disabled reg step st he]
    exact ⟨rfl, h, rfl, by simp [stepEvs]⟩
  cases hr : reg step.action.module with
  | importError msg =>
    rw [runStep_import_error reg step st msg he hr]
    exact ⟨rfl, h, rfl, by simp [stepEvs]⟩
  | classMissing =>
    rw [runStep_class_missing reg step st he hr]
    exact ⟨rfl, h, rfl, by simp [stepEvs]⟩
  | found impl =>
    cases hk : buildKwargs st.meta step.action with
    | none =>
      rw [runStep_missing_meta reg step st impl he hr hk]
      exact ⟨rfl, h, rfl, by simp [stepEvs]⟩
    | some kw =>
      have hlen : st.driver < (st.heap ++ [st.heap.getD st.driver default]).length := by
        simp [List.length_append]; omega
      have hlen2 : st.driver <
          (st.heap ++ [impl.mutate (st.heap.getD st.driver default)]).length := by
        simp [List.length_append]; omega
      have hget := getD_append_lt st.heap [st.heap.getD st.driver default]
        st.driver default h
      have hget2 := getD_append_lt st.heap
        [impl.mutate (st.heap.getD st.driver default)] st.driver default h
      by_cases hv : impl.verify (st.heap.getD st.driver default) kw = ""
      · cases hrun : impl.runOk (st.heap.getD st.driver default) kw with
        | false =>
          by_cases ha : step.allow_failure = some true
          · rw [runStep_run_fail_allow reg step st impl kw he hr hk hv hrun ha]
            exact ⟨rfl, hlen2, hget2, by intro m c hc; simp [stepEvs] at hc; simp [List.getD_eq_getElem?_getD, hc.2]⟩
          · rw [runStep_run_fail_fatal reg step st impl kw he hr hk hv hrun ha]
            exact ⟨rfl, hlen2, hget2, by intro m c hc; simp [stepEvs] at hc; simp [List.getD_eq_getElem?_getD, hc.2]⟩
        | true =>
          cases hu : step.action.meta_updates with
          | none =>
            rw [runStep_success_no_meta reg step st impl kw he hr hk hv hrun hu]
            exact ⟨rfl, hlen2, hget2, by intro m c hc; simp [stepEvs] at hc; simp [List.getD_eq_getElem?_getD, hc.2]⟩
          | some us =>
            rw [runStep_success_meta reg step st impl kw us he hr hk hv hrun hu]
            exact ⟨rfl, hlen2, hget2, by intro m c hc; simp [stepEvs] at hc; simp [List.getD_eq_getElem?_getD, hc.2]⟩
      · by_cases ha : step.allow_failure = some true
        · rw [runStep_verify_fail_allow reg step st impl kw he hr hk hv ha]
          exact ⟨rfl, hlen, hget, by intro m c hc; simp [stepEvs] at hc; simp [List.getD_eq_getElem?_getD, hc.2]⟩
        · rw [runStep_verify_fail_fatal reg step st impl kw he hr hk hv ha]
          exact ⟨rfl, hlen, hget, by intro m c hc; simp [stepEvs] at hc; simp [List.getD_eq_getElem?_getD, hc.2]⟩

lemma runStepsAux_inv (reg : String → Resolution) (steps : List Step) :
    ∀ st : RunSt, st.driver < st.heap.length →
    ((runStepsAux reg steps st).1.driver = st.driver ∧
     st.driver < (runStepsAux reg steps st).1.heap.length ∧
     (runStepsAux reg steps st).1.heap.getD st.driver default
       = st.heap.getD st.driver default ∧
     ∀ m c, REvent.constructed m c ∈ (runStepsAux reg steps st).2.1 →
       c = st.heap.getD st.driver default) := by
  induction steps with
  | nil =>
    intro st h
    rw [runStepsAux_nil]
    exact ⟨rfl, h, rfl, by simp⟩
  | cons step rest ih =>
    intro st h
    have hstep := runStep_inv reg step st h
    cases hres : runStep reg step st with
    | proceed st1 evs =>
      rw [hres] at hstep
      simp only [stepSt, stepEvs] at hstep
      obtain ⟨hd1, hl1, hg1, hc1⟩ := hstep
      have hlt1 : st1.driver < st1.heap.length := by rw [hd1]; exact hl1
      have hrec := ih st1 hlt1
      obtain ⟨hd2, hl2, hg2, hc2⟩ := hrec
      rw [runStepsAux_cons_proceed reg step rest st st1 evs hres]
      refine ⟨by rw [hd2, hd1], ?_, ?_, ?_⟩
      · rw [← hd1]; exact hl2
      · calc (runStepsAux reg rest st1).1.heap.getD st.driver default
            = (runStepsAux reg rest st1).1.heap.getD st1.driver default := by rw [hd1]
          _ = st1.heap.getD st1.driver default := hg2
          _ = st1.heap.getD st.driver default := by rw [hd1]
          _ = st.heap.getD st.driver default := hg1
      · intro m c hc
        rcases List.mem_append.1 hc with hin | hin
        · exact hc1 m c hin
        · have := hc2 m c hin
          rw [hd1] at this
          rw [this, hg1]
    | stopGroup st1 evs =>
      rw [hres] at hstep
      simp only [stepSt, stepEvs] at hstep
      obtain ⟨hd1, hl1, hg1, hc1⟩ := hstep
      rw [runStepsAux_cons_stop reg step rest st st1 evs hres]
      exact ⟨hd1, hl1, hg1, hc1⟩
    | fatalStop st1 evs m =>
      rw [hres] at hstep
      simp only [stepSt, stepEvs] at hstep
      obtain ⟨hd1, hl1, hg1, hc1⟩ := hstep
      rw [runStepsAux_cons_fatal reg step rest st st1 evs m hres]
      exact ⟨hd1, hl1, hg1, hc1⟩

/-! Claim theorems for the step pipeline runner. -/

/-- C5: a step whose descriptor has `enabled = false` is skipped with no
side effects at all: running the group with it is literally the same as
running the group without it, so its action class is never resolved, no
action is constructed, and neither `verify` nor `run` is called. -/
theorem disabled_step_skipped (reg : String → Resolution) (step : Step)
    (rest : List Step) (st : RunSt) (he : step.enabled = some false) :
    runStepsAux reg (step :: rest) st = runStepsAux reg rest st := by
  rw [runStepsAux_cons_proceed reg step rest st st [] (runStep_disabled reg step st he)]
  rfl

/-- Witness for C5 at a concrete disabled step. -/
theorem disabled_step_skipped_witness :
    disabledStep.enabled = some false ∧
    runStepsAux reg0 [disabledStep, buildStep] st0 = runStepsAux reg0 [buildStep] st0 :=
  ⟨rfl, disabled_step_skipped reg0 disabledStep [buildStep] st0 rfl⟩

/-- C1 counterexample: with a concrete step list whose first step has an
unresolvable action class, the runner does NOT fail fast: the group
outcome is `ok` (no configuration error is raised) and the remaining step
of the group is still constructed and run. -/
theorem unknown_action_counterexample :
    (runStepsAux reg0 [unknownStep, buildStep] st0).2.2 = ROutcome.ok ∧
    REvent.constructed "actions.build" cfg0
      ∈ (runStepsAux reg0 [unknownStep, buildStep] st0).2.1 := by
  decide

/-- C1 amended: resolution failure has two behaviours, neither a fail-fast
configuration error before construction: when the action module imports
but holds no matching title-cased class, the runner emits a warning
naming the missing class, skips only that step, and continues with the
remaining steps of the group without aborting; when the module itself
cannot be imported, the raised import error propagates out of the runner
uncaught and the whole run aborts through the top-level handler with the
exception text (so later steps and later groups do not run). -/
theorem action_resolution_policy (reg : String → Resolution) (step : Step)
    (rest : List Step) (st : RunSt)
    (he : ¬ step.enabled = some false) :
    (reg step.action.module = Resolution.classMissing →
      runStepsAux reg (step :: rest) st =
        ((runStepsAux reg rest st).1,
         REvent.printAction (step.desc.getD "Performing Undescribed step")
           :: REvent.warn ("action class (" ++ classTitle step.action.module
                ++ ") could not be found!")
           :: (runStepsAux reg rest st).2.1,
         (runStepsAux reg rest st).2.2)) ∧
    (∀ msg, reg step.action.module = Resolution.importError msg →
      runStepsAux reg (step :: rest) st =
        (st, [REvent.printAction (step.desc.getD "Performing Undescribed step")],
         ROutcome.fatal msg) ∧
      ∀ gs, (runGroups reg ((step :: rest) :: gs) st).2.2 = ROutcome.fatal msg) := by
  constructor
  · intro hr
    rw [runStepsAux_cons_proceed reg step rest st st _
      (runStep_class_missing reg step st he hr)]
    rfl
  · intro msg hr
    have hg := runStepsAux_cons_fatal reg step rest st st _ msg
      (runStep_import_error reg step st msg he hr)
    refine ⟨hg, fun gs => ?_⟩
    rw [runGroups_cons_fatal reg (step :: rest) gs st _ _ _ hg]

/-- Witness for the amended C1: the missing-class step warns and the
group continues; the non-importable step aborts the run fatally. -/
theorem action_resolution_policy_witness :
    (¬ unknownStep.enabled = some false) ∧
    runStepsAux reg0 [unknownStep, buildStep] st0 =
      ((runStepsAux reg0 [buildStep] st0).1,
       REvent.printAction "Performing Undescribed step"
         :: REvent.warn ("action class (" ++ classTitle "utility.common"
              ++ ") could not be found!")
         :: (runStepsAux reg0 [buildStep] st0).2.1,
       (runStepsAux reg0 [buildStep] st0).2.2) ∧
    (runStepsAux reg0 [importErrorStep] st0).2.2
      = ROutcome.fatal "No module named actions.nonexistent" :=
  ⟨by decide,
   (action_resolution_policy reg0 unknownStep [buildStep] st0 (by decide)).1 rfl,
   by rw [((action_resolution_policy reg0 importErrorStep [] st0 (by decide)).2
        "No module named actions.nonexistent" rfl).1]⟩

/-- C3: every action is constructed against an isolated deep clone of the
driver configuration: after running any step list, the driver
configuration cell is unchanged (no mutation performed by any action on
its own snapshot cell is observable by the pipeline driver), and every
constructed snapshot equals the driver configuration at construction
time, whatever each action's mutation does — so no action's mutation is
observable through any other action's snapshot. -/
theorem config_isolation (reg : String → Resolution) (steps : List Step)
    (st : RunSt) (h : st.driver < st.heap.length) :
    (runStepsAux reg steps st).1.driver = st.driver ∧
    (runStepsAux reg steps st).1.heap.getD st.driver default
      = st.heap.getD st.driver default ∧
    ∀ m c, REvent.constructed m c ∈ (runStepsAux reg steps st).2.1 →
      c = st.heap.getD st.driver default := by
  obtain ⟨h1, _, h3, h4⟩ := runStepsAux_inv reg steps st h
  exact ⟨h1, h3, h4⟩

/-- Witness for C3 at a concrete run. -/
theorem config_isolation_witness :
    st0.driver < st0.heap.length ∧
    (runStepsAux reg0 [buildStep, metaStep] st0).1.heap.getD st0.driver default
      = st0.heap.getD st0.driver default :=
  ⟨by decide, (config_isolation reg0 [buildStep, metaStep] st0 (by decide)).2.1⟩

/-- C2: when a step's `verify` returns a non-empty error or its `run`
fails, then with `allow_failure = true` the runner emits a warning, the
group result is `ok` (no process abort), the remainder of the current
group is not processed (the run equals the run of the failing step
alone), and any following groups still execute; without
`allow_failure = true` the whole pipeline aborts with a fatal error and
following groups do not change that outcome. -/
theorem allow_failure_policy (reg : String → Resolution) (impl : ActionImpl)
    (step : Step) (rest : List Step) (gs : List (List Step)) (st : RunSt)
    (kw : List (String × MVal))
    (he : ¬ step.enabled = some false)
    (hr : reg step.action.module = .found impl)
    (hk : buildKwargs st.meta step.action = some kw)
    (hf : ¬ impl.verify (st.heap.getD st.driver default) kw = ""
          ∨ impl.runOk (st.heap.getD st.driver default) kw = false) :
    (step.allow_failure = some true →
      runStepsAux reg (step :: rest) st = runStepsAux reg [step] st ∧
      (runStepsAux reg (step :: rest) st).2.2 = ROutcome.ok ∧
      (∃ w, REvent.warn w ∈ (runStepsAux reg (step :: rest) st).2.1) ∧
      runGroups reg ((step :: rest) :: gs) st =
        ((runGroups reg gs (runStepsAux reg (step :: rest) st).1).1,
         (runStepsAux reg (step :: rest) st).2.1
           ++ (runGroups reg gs (runStepsAux reg (step :: rest) st).1).2.1,
         (runGroups reg gs (runStepsAux reg (step :: rest) st).1).2.2)) ∧
    (¬ step.allow_failure = some true →
      ∃ m, (runStepsAux reg (step :: rest) st).2.2 = ROutcome.fatal m ∧
        (runGroups reg ((step :: rest) :: gs) st).2.2 = ROutcome.fatal m) := by
  by_cases hv : impl.verify (st.heap.getD st.driver default) kw = ""
  · have hrun : impl.runOk (st.heap.getD st.driver default) kw = false := by
      rcases hf with h | h
      · exact absurd hv h
      · exact h
    by_cases ha : step.allow_failure = some true
    · have hs := runStep_run_fail_allow reg step st impl kw he hr hk hv hrun ha
      have hg := runStepsAux_cons_stop reg step rest st _ _ hs
      have hg1 := runStepsAux_cons_stop reg step [] st _ _ hs
      refine ⟨fun _ => ⟨?_, ?_, ?_, ?_⟩, fun hna => absurd ha hna⟩
      · rw [hg, hg1]
      · rw [hg]
      · refine ⟨"Running of this action failed. Skipping because of allow_failure flag.", ?_⟩
        rw [hg]
        simp
      · rw [runGroups_cons_ok reg (step :: rest) gs st _ _ hg, hg]
    · have hs := runStep_run_fail_fatal reg step st impl kw he hr hk hv hrun ha
      have hg := runStepsAux_cons_fatal reg step rest st _ _ _ hs
      refine ⟨fun hpos => absurd hpos ha, fun _ => ?_⟩
      refine ⟨impl.runError (st.heap.getD st.driver default) kw, ?_, ?_⟩
      · rw [hg]
      · rw [runGroups_cons_fatal reg (step :: rest) gs st _ _ _ hg]
  · by_cases ha : step.allow_failure = some true
    · have hs := runStep_verify_fail_allow reg step st impl kw he hr hk hv ha
      have hg := runStepsAux_cons_stop reg step rest st _ _ hs
      have hg1 := runStepsAux_cons_stop reg step [] st _ _ hs
      refine ⟨fun _ => ⟨?_, ?_, ?_, ?_⟩, fun hna => absurd ha hna⟩
      · rw [hg, hg1]
      · rw [hg]
      · refine ⟨"Verification of this action failed. Skipping because of allow_failure flag.", ?_⟩
        rw [hg]
        simp
      · rw [runGroups_cons_ok reg (step :: rest) gs st _ _ hg, hg]
    · have hs := runStep_verify_fail_fatal reg step st impl kw he hr hk hv ha
      have hg := runStepsAux_cons_fatal reg step rest st _ _ _ hs
      refine ⟨fun hpos => absurd hpos ha, fun _ => ?_⟩
      refine ⟨impl.verify (st.heap.getD st.driver default) kw, ?_, ?_⟩
      · rw [hg]
      · rw [runGroups_cons_fatal reg (step :: rest) gs st _ _ _ hg]

/-- Witness for C2: a concrete `allow_failure` step whose run fails does
not abort the group. -/
theorem allow_failure_policy_witness :
    failStep.allow_failure = some true ∧
    (runStepsAux reg0 [failStep, buildStep] st0).2.2 = ROutcome.ok :=
  ⟨rfl,
   ((allow_failure_policy reg0 failImpl failStep [buildStep] [] st0 []
      (by decide) rfl rfl (Or.inr rfl)).1 rfl).2.1⟩

/-- C6: for an enabled step whose action run succeeds and whose descriptor
declares `meta_updates`, each configured mapping whose named output
exists on the action instance is written into the metadata store, and the
store is persisted (saved snapshot equals the data) within the step,
before any next step is processed: the run of `step :: rest` is the run
of `step` alone composed with the run of `rest` from the updated,
already-persisted state. -/
theorem meta_updates_persisted (reg : String → Resolution) (impl : ActionImpl)
    (step : Step) (st : RunSt) (kw : List (String × MVal))
    (us : List (String × String)) (k v : String) (m : MVal)
    (he : ¬ step.enabled = some false)
    (hr : reg step.action.module = .found impl)
    (hk : buildKwargs st.meta step.action = some kw)
    (hv : impl.verify (st.heap.getD st.driver default) kw = "")
    (hrun : impl.runOk (st.heap.getD st.driver default) kw = true)
    (hu : step.action.meta_updates = some us)
    (hnd : (us.map Prod.fst).Nodup)
    (hkv : (k, v) ∈ us)
    (hout : impl.outputs (impl.mutate (st.heap.getD st.driver default)) kw v = some m) :
    (runStepsAux reg [step] st).2.2 = ROutcome.ok ∧
    getKV (runStepsAux reg [step] st).1.meta.data k = some m ∧
    (runStepsAux reg [step] st).1.meta.saved = (runStepsAux reg [step] st).1.meta.data ∧
    ∀ rest, runStepsAux reg (step :: rest) st =
      ((runStepsAux reg rest (runStepsAux reg [step] st).1).1,
       (runStepsAux reg [step] st).2.1
         ++ (runStepsAux reg rest (runStepsAux reg [step] st).1).2.1,
       (runStepsAux reg rest (runStepsAux reg [step] st).1).2.2) := by
  have hs := runStep_success_meta reg step st impl kw us he hr hk hv hrun hu
  have h1 := runStepsAux_cons_proceed reg step [] st _ _ hs
  refine ⟨?_, ?_, ?_, ?_⟩
  · rw [h1]
    rfl
  · rw [h1]
    exact metaFold_mem (impl.outputs (impl.mutate (st.heap.getD st.driver default)) kw)
      us st.meta k v m hnd hkv hout
  · rw [h1]
    rfl
  · intro rest
    rw [runStepsAux_cons_proceed reg step rest st _ _ hs, h1]
    rfl

/-- Witness for C6: Scenario A of the spec — after the step, the store
holds `foo = 42` and the persisted snapshot equals the data. -/
theorem meta_updates_persisted_witness :
    getKV (runStepsAux reg0 [metaStep] st0).1.meta.data "foo" = some (MVal.natV 42) ∧
    (runStepsAux reg0 [metaStep] st0).1.meta.saved
      = (runStepsAux reg0 [metaStep] st0).1.meta.data :=
  ⟨(meta_updates_persisted reg0 metaImpl metaStep st0 [] [("foo", "barAttr")]
      "foo" "barAttr" (MVal.natV 42) (by decide) rfl rfl rfl rfl rfl
      (by decide) (by decide) rfl).2.1,
   (meta_updates_persisted reg0 metaImpl metaStep st0 [] [("foo", "barAttr")]
      "foo" "barAttr" (MVal.natV 42) (by decide) rfl rfl rfl rfl rfl
      (by decide) (by decide) rfl).2.2.1⟩

/-- C10: the action keyword arguments are built by first collecting the
requested metadata values and then applying the declared static args, so
a key present in both receives the static arg value. -/
theorem static_args_precedence (bm : BuildMeta) (a : ActionDesc) (ks : List String)
    (args : List (String × MVal)) (k : String) (v w : MVal)
    (kw : List (String × MVal))
    (hm : a.meta = some ks) (hks : k ∈ ks)
    (hbm : getKV bm.data k = some w)
    (ha : a.args = some args)
    (hnd : (args.map Prod.fst).Nodup)
    (hkv : (k, v) ∈ args)
    (hkw : buildKwargs bm a = some kw) :
    getKV kw k = some v := by
  cases hcol : bm.collect_meta ks with
  | none =>
    have hb : buildKwargs bm a = none := by simp [buildKwargs, hm, ha, hcol]
    rw [hb] at hkw
    exact absurd hkw (by simp)
  | some c =>
    have hb : buildKwargs bm a = some (updateKV (updateKV [] c) args) := by
      simp [buildKwargs, hm, ha, hcol]
    rw [hb] at hkw
    have hkw2 : kw = updateKV (updateKV [] c) args := (Option.some.inj hkw).symm
    rw [hkw2]
    exact getKV_updateKV_mem args (updateKV [] c) k v hnd hkv

/-- Witness for C10: key `foo` is both seeded in the metadata store (as 1)
and declared as a static arg (as 2); the constructed kwargs hold 2. -/
theorem static_args_precedence_witness :
    buildKwargs bm0 a0 = some [("foo", MVal.natV 2)] ∧
    getKV [("foo", MVal.natV 2)] "foo" = some (MVal.natV 2) :=
  ⟨by decide,
   static_args_precedence bm0 a0 ["foo"] [("foo", MVal.natV 2)] "foo"
     (MVal.natV 2) (MVal.natV 1) [("foo", MVal.natV 2)] rfl (by decide) rfl rfl
     (by decide) (by decide) (by decide)⟩
lemma mem_cmdArgs_build (p : Package) :
    "-build" ∈ p.cmdArgs ↔ p.build = true := by
  have k1 : ∀ x : String, ("-build" : String) ≠ "-ScriptsForProject=" ++ x :=
    fun x => str_ne_append_of_short _ _ _ (by decide)
  have k2 : ∀ x : String, ("-build" : String) ≠ "-project=" ++ x :=
    fun x => str_ne_append_of_short _ _ _ (by decide)
  have k3 : ∀ x : String, ("-build" : String) ≠ "-archivedirectory=" ++ x :=
    fun x => str_ne_append_of_short _ _ _ (by decide)
  have k4 : ∀ x : String, ("-build" : String) ≠ "-clientconfig=" ++ x :=
    fun x => str_ne_append_of_short _ _ _ (by decide)
  have k5 : ∀ x : String, ("-build" : String) ≠ "-serverconfig=" ++ x :=
    fun x => str_ne_append_of_short _ _ _ (by decide)
  have k6 : ∀ x : String, ("-build" : String) ≠ "-ue4exe=" ++ x :=
    fun x => str_ne_append_of_short _ _ _ (by decide)
  have k7 : ∀ x : String, ("-build" : String) ≠ "-map=" ++ x :=
    fun x => str_ne_append_at _ _ _ 1 (by decide) (by decide)
  simp [Package.cmdArgs, mem_ite_list, k1, k2, k3, k4, k5, k6, k7]

lemma mem_cmdArgs_cook (p : Package) :
    "-cook" ∈ p.cmdArgs ↔ p.cook = true := by
  have k1 : ∀ x : String, ("-cook" : String) ≠ "-ScriptsForProject=" ++ x :=
    fun x => str_ne_append_of_short _ _ _ (by decide)
  have k2 : ∀ x : String, ("-cook" : String) ≠ "-project=" ++ x :=
    fun x => str_ne_append_of_short _ _ _ (by decide)
  have k3 : ∀ x : String, ("-cook" : String) ≠ "-archivedirectory=" ++ x :=
    fun x => str_ne_append_of_short _ _ _ (by decide)
  have k4 : ∀ x : String, ("-cook" : String) ≠ "-clientconfig=" ++ x :=
    fun x => str_ne_append_of_short _ _ _ (by decide)
  have k5 : ∀ x : String, ("-cook" : String) ≠ "-serverconfig=" ++ x :=
    fun x => str_ne_append_of_short _ _ _ (by decide)
  have k6 : ∀ x : String, ("-cook" : String) ≠ "-ue4exe=" ++ x :=
    fun x => str_ne_append_of_short _ _ _ (by decide)
  have k7 : ∀ x : String, ("-cook" : String) ≠ "-map=" ++ x :=
    fun x => str_ne_append_at _ _ _ 1 (by decide) (by decide)
  simp [Package.cmdArgs, mem_ite_list, k1, k2, k3, k4, k5, k6, k7]

lemma mem_cmdArgs_package (p : Package) :
    "-package" ∈ p.cmdArgs ↔ p.package = true := by
  have k1 : ∀ x : String, ("-package" : String) ≠ "-ScriptsForProject=" ++ x :=
    fun x => str_ne_append_of_short _ _ _ (by decide)
  have k2 : ∀ x : String, ("-package" : String) ≠ "-project=" ++ x :=
    fun x => str_ne_append_of_short _ _ _ (by decide)
  have k3 : ∀ x : String, ("-package" : String) ≠ "-archivedirectory=" ++ x :=
    fun x => str_ne_append_of_short _ _ _ (by decide)
  have k4 : ∀ x : String, ("-package" : String) ≠ "-clientconfig=" ++ x :=
    fun x => str_ne_append_of_short _ _ _ (by decide)
  have k5 : ∀ x : String, ("-package" : String) ≠ "-serverconfig=" ++ x :=
    fun x => str_ne_append_of_short _ _ _ (by decide)
  have k6 : ∀ x : String, ("-package" : String) ≠ "-ue4exe=" ++ x :=
    fun x => str_ne_append_at _ _ _ 1 (by decide) (by decide)
  have k7 : ∀ x : String, ("-package" : String) ≠ "-map=" ++ x :=
    fun x => str_ne_append_at _ _ _ 1 (by decide) (by decide)
  simp [Package.cmdArgs, mem_ite_list, k1, k2, k3, k4, k5, k6, k7]

lemma mem_cmdArgs_stage (p : Package) :
    "-stage" ∈ p.cmdArgs ↔ p.stage = true := by
  have k1 : ∀ x : String, ("-stage" : String) ≠ "-ScriptsForProject=" ++ x :=
    fun x => str_ne_append_of_short _ _ _ (by decide)
  have k2 : ∀ x : String, ("-stage" : String) ≠ "-project=" ++ x :=
    fun x => str_ne_append_of_short _ _ _ (by decide)
  have k3 : ∀ x : String, ("-stage" : String) ≠ "-archivedirectory=" ++ x :=
    fun x => str_ne_append_of_short _ _ _ (by decide)
  have k4 : ∀ x : String, ("-stage" : String) ≠ "-clientconfig=" ++ x :=
    fun x => str_ne_append_of_short _ _ _ (by decide)
  have k5 : ∀ x : String, ("-stage" : String) ≠ "-serverconfig=" ++ x :=
    fun x => str_ne_append_of_short _ _ _ (by decide)
  have k6 : ∀ x : String, ("-stage" : String) ≠ "-ue4exe=" ++ x :=
    fun x => str_ne_append_of_short _ _ _ (by decide)
  have k7 : ∀ x : String, ("-stage" : String) ≠ "-map=" ++ x :=
    fun x => str_ne_append_at _ _ _ 1 (by decide) (by decide)
  simp [Package.cmdArgs, mem_ite_list, k1, k2, k3, k4, k5, k6, k7]

lemma mem_cmdArgs_archive (p : Package) :
    "-archive" ∈ p.cmdArgs ↔ p.archive = true := by
  have k1 : ∀ x : String, ("-archive" : String) ≠ "-ScriptsForProject=" ++ x :=
    fun x => str_ne_append_of_short _ _ _ (by decide)
  have k2 : ∀ x : String, ("-archive" : String) ≠ "-project=" ++ x :=
    fun x => str_ne_append_of_short _ _ _ (by decide)
  have k3 : ∀ x : String, ("-archive" : String) ≠ "-archivedirectory=" ++ x :=
    fun x => str_ne_append_of_short _ _ _ (by decide)
  have k4 : ∀ x : String, ("-archive" : String) ≠ "-clientconfig=" ++ x :=
    fun x => str_ne_append_of_short _ _ _ (by decide)
  have k5 : ∀ x : String, ("-archive" : String) ≠ "-serverconfig=" ++ x :=
    fun x => str_ne_append_of_short _ _ _ (by decide)
  have k6 : ∀ x : String, ("-archive" : String) ≠ "-ue4exe=" ++ x :=
    fun x => str_ne_append_at _ _ _ 1 (by decide) (by decide)
  have k7 : ∀ x : String, ("-archive" : String) ≠ "-map=" ++ x :=
    fun x => str_ne_append_at _ _ _ 1 (by decide) (by decide)
  simp [Package.cmdArgs, mem_ite_list, k1, k2, k3, k4, k5, k6, k7]

lemma mem_cmdArgs_clean (p : Package) :
    "-clean" ∈ p.cmdArgs ↔ (p.config.clean = true ∨ p.full_rebuild = true) := by
  have k1 : ∀ x : String, ("-clean" : String) ≠ "-ScriptsForProject=" ++ x :=
    fun x => str_ne_append_of_short _ _ _ (by decide)
  have k2 : ∀ x : String, ("-clean" : String) ≠ "-project=" ++ x :=
    fun x => str_ne_append_of_short _ _ _ (by decide)
  have k3 : ∀ x : String, ("-clean" : String) ≠ "-archivedirectory=" ++ x :=
    fun x => str_ne_append_of_short _ _ _ (by decide)
  have k4 : ∀ x : String, ("-clean" : String) ≠ "-clientconfig=" ++ x :=
    fun x => str_ne_append_of_short _ _ _ (by decide)
  have k5 : ∀ x : String, ("-clean" : String) ≠ "-serverconfig=" ++ x :=
    fun x => str_ne_append_of_short _ _ _ (by decide)
  have k6 : ∀ x : String, ("-clean" : String) ≠ "-ue4exe=" ++ x :=
    fun x => str_ne_append_of_short _ _ _ (by decide)
  have k7 : ∀ x : String, ("-clean" : String) ≠ "-map=" ++ x :=
    fun x => str_ne_append_at _ _ _ 1 (by decide) (by decide)
  simp [Package.cmdArgs, mem_ite_list, k1, k2, k3, k4, k5, k6, k7]

lemma mem_cmdArgs_iterate (p : Package) :
    "-iterate" ∈ p.cmdArgs ↔ ¬ (p.config.clean = true ∨ p.full_rebuild = true) := by
  have k1 : ∀ x : String, ("-iterate" : String) ≠ "-ScriptsForProject=" ++ x :=
    fun x => str_ne_append_of_short _ _ _ (by decide)
  have k2 : ∀ x : String, ("-iterate" : String) ≠ "-project=" ++ x :=
    fun x => str_ne_append_of_short _ _ _ (by decide)
  have k3 : ∀ x : String, ("-iterate" : String) ≠ "-archivedirectory=" ++ x :=
    fun x => str_ne_append_of_short _ _ _ (by decide)
  have k4 : ∀ x : String, ("-iterate" : String) ≠ "-clientconfig=" ++ x :=
    fun x => str_ne_append_of_short _ _ _ (by decide)
  have k5 : ∀ x : String, ("-iterate" : String) ≠ "-serverconfig=" ++ x :=
    fun x => str_ne_append_of_short _ _ _ (by decide)
  have k6 : ∀ x : String, ("-iterate" : String) ≠ "-ue4exe=" ++ x :=
    fun x => str_ne_append_at _ _ _ 1 (by decide) (by decide)
  have k7 : ∀ x : String, ("-iterate" : String) ≠ "-map=" ++ x :=
    fun x => str_ne_append_at _ _ _ 1 (by decide) (by decide)
  simp [Package.cmdArgs, mem_ite_list, k1, k2, k3, k4, k5, k6, k7]

lemma mem_cmdArgs_iterativecooking (p : Package) :
    "-iterativecooking" ∈ p.cmdArgs ↔ ¬ (p.config.clean = true ∨ p.full_rebuild = true) := by
  have k1 : ∀ x : String, ("-iterativecooking" : String) ≠ "-ScriptsForProject=" ++ x :=
    fun x => str_ne_append_of_short _ _ _ (by decide)
  have k2 : ∀ x : String, ("-iterativecooking" : String) ≠ "-project=" ++ x :=
    fun x => str_ne_append_at _ _ _ 1 (by decide) (by decide)
  have k3 : ∀ x : String, ("-iterativecooking" : String) ≠ "-archivedirectory=" ++ x :=
    fun x => str_ne_append_of_short _ _ _ (by decide)
  have k4 : ∀ x : String, ("-iterativecooking" : String) ≠ "-clientconfig=" ++ x :=
    fun x => str_ne_append_at _ _ _ 1 (by decide) (by decide)
  have k5 : ∀ x : String, ("-iterativecooking" : String) ≠ "-serverconfig=" ++ x :=
    fun x => str_ne_append_at _ _ _ 1 (by decide) (by decide)
  have k6 : ∀ x : String, ("-iterativecooking" : String) ≠ "-ue4exe=" ++ x :=
    fun x => str_ne_append_at _ _ _ 1 (by decide) (by decide)
  have k7 : ∀ x : String, ("-iterativecooking" : String) ≠ "-map=" ++ x :=
    fun x => str_ne_append_at _ _ _ 1 (by decide) (by decide)
  simp [Package.cmdArgs, mem_ite_list, k1, k2, k3, k4, k5, k6, k7]

/-- C9: in the packaging argument vector, `-build`, `-cook`, `-package`,
`-stage` and `-archive` each appear exactly when the corresponding stage
toggle is set (the configured toggles pass through unmodified), `-clean`
appears exactly when clean or full_rebuild is set, otherwise `-iterate`
and `-iterativecooking` appear, and the clean and iterative modes are
never present together. -/
theorem package_cmdArgs_toggles (p : Package) :
    ("-build" ∈ p.cmdArgs ↔ p.build = true) ∧
    ("-cook" ∈ p.cmdArgs ↔ p.cook = true) ∧
    ("-package" ∈ p.cmdArgs ↔ p.package = true) ∧
    ("-stage" ∈ p.cmdArgs ↔ p.stage = true) ∧
    ("-archive" ∈ p.cmdArgs ↔ p.archive = true) ∧
    ("-clean" ∈ p.cmdArgs ↔ (p.config.clean = true ∨ p.full_rebuild = true)) ∧
    ("-iterate" ∈ p.cmdArgs ↔ ¬ (p.config.clean = true ∨ p.full_rebuild = true)) ∧
    ("-iterativecooking" ∈ p.cmdArgs
      ↔ ¬ (p.config.clean = true ∨ p.full_rebuild = true)) ∧
    ¬ ("-clean" ∈ p.cmdArgs ∧ "-iterate" ∈ p.cmdArgs) := by
  refine ⟨mem_cmdArgs_build p, mem_cmdArgs_cook p, mem_cmdArgs_package p,
    mem_cmdArgs_stage p, mem_cmdArgs_archive p, mem_cmdArgs_clean p,
    mem_cmdArgs_iterate p, mem_cmdArgs_iterativecooking p, ?_⟩
  intro hboth
  exact ((mem_cmdArgs_iterate p).1 hboth.2) ((mem_cmdArgs_clean p).1 hboth.1)

/-- C4 counterexample: `Package.verify` is not side-effect free — on the
default-constructed packaging action (empty `build_type`, ready
environment) it returns success yet overwrites the instance field
`build_type`. -/
theorem package_verify_counterexample :
    (Package.verify p0).1.build_type ≠ p0.build_type ∧ (Package.verify p0).2 = "" := by
  decide

/-- C4 amended: `Package.verify` checks the environment precondition and
returns an error message with the empty string meaning success; it never
changes the configuration, and the only field it may change is
normalizing an unrecognized `build_type` to `standalone`; when
`build_type` is already recognized the instance is unchanged. -/
theorem package_verify_normalizes (p : Package) :
    (Package.verify p).1.config = p.config ∧
    ((Package.verify p).2 = "" ↔ p.config.check_environment = true) ∧
    ((Package.verify p).1 = p ∨
      (Package.verify p).1 = { p with build_type := "standalone" }) ∧
    ((p.build_type = "standalone" ∨ p.build_type = "client" ∨ p.build_type = "server") →
      (Package.verify p).1 = p) := by
  unfold Package.verify
  by_cases hc : p.config.check_environment = true <;>
    by_cases hb : (p.build_type = "standalone" ∨ p.build_type = "client"
      ∨ p.build_type = "server") <;>
      simp [hc, hb]

/-- C7: a bootstrap with no known installation path, no version-control
coordinates and no override path fails immediately with the
configuration error, before any dependency sync, git pull, registration
or process spawn is attempted (the event trace is empty). -/
theorem bootstrap_no_path_fails (env : BootEnv) (config : ProjectConfig)
    (h1 : config.UE4EnginePath = "")
    (h2 : config.git_repo = "" ∨ config.git_proj_branch = "") :
    ensure_engine env config "" = (config, [], BootOutcome.abortedWith staticEngineMsg) := by
  have hnp : ¬ (config.git_repo ≠ "" ∧ config.git_proj_branch ≠ "") := by
    rcases h2 with h | h <;> simp [h]
  simp [ensure_engine, h1, hnp]

/-- Witness for C7 at the default configuration. -/
theorem bootstrap_no_path_fails_witness :
    cfg0.UE4EnginePath = "" ∧
    ensure_engine env0 cfg0 "" = (cfg0, [], BootOutcome.abortedWith staticEngineMsg) :=
  ⟨rfl, bootstrap_no_path_fails env0 cfg0 rfl (Or.inl rfl)⟩

/-- C8: when the editor is detected running (and the engine path is
already known, any configured git pull succeeds and engine-path setup
succeeds), the bootstrapper skips the dependency-sync launch and the
build-tool check and generation entirely and still finishes the pass in
the ready state. -/
theorem bootstrap_editor_running_skips (env : BootEnv) (config : ProjectConfig)
    (h1 : ¬ config.UE4EnginePath = "")
    (h2 : config.editor_running = true)
    (h3 : (config.git_repo ≠ "" ∧ config.git_proj_branch ≠ "") → env.gitOk = true)
    (h4 : env.setupOk "" = true) :
    (ensure_engine env config "").2.2 = BootOutcome.ready ∧
    (∀ args, BootEvent.launchDeps args ∉ (ensure_engine env config "").2.1) ∧
    BootEvent.launchGenProj ∉ (ensure_engine env config "").2.1 := by
  by_cases hcp : config.git_repo ≠ "" ∧ config.git_proj_branch ≠ ""
  · have hgit := h3 hcp
    by_cases hkey : config.UE4EngineKeyName ≠ "" <;>
      simp [ensure_engine, setup_engine_paths, h1, h2, hgit, h4, hcp, hkey]
  · by_cases hkey : config.UE4EngineKeyName ≠ "" <;>
      simp [ensure_engine, setup_engine_paths, h1, h2, h4, hcp, hkey]

/-- Witness for C8 at a concrete configuration with a running editor. -/
theorem bootstrap_editor_running_skips_witness :
    cfgE.editor_running = true ∧
    (ensure_engine env0 cfgE "").2.2 = BootOutcome.ready :=
  ⟨rfl, (bootstrap_editor_running_skips env0 cfgE (by decide) rfl
    (fun _ => rfl) rfl).1⟩
